import Mathlib

/-!
Verification development for the listmonk campaign send engine fork.

The definitions below are shallow embeddings of the Go source:
  * namespace `Manager`  : the per-campaign pipe scheduler
    (`NextSubscribers`, `OnError`, `Stop`, the `cleanup` status transition).
  * namespace `Email`    : the SMTP messenger `Push` (header construction,
    envelope sender) from the `email` package.
  * namespace `Mailbox`  : the POP3 bounce scanner (`classifyBounce` with its
    two regular expressions, `isValidUUID`, the `Scan` download/emit/delete
    skeleton).
  * namespace `Core`     : `Core.RecordBounce` (UUID normalisation and the
    database-error handling).

Machine integers are modelled as `Int` (Go `int`/`int64` division is
truncated division, `Int.tdiv`); time instants are modelled by the components
the code actually reads (the current UTC hour, the nanoseconds until the next
UTC hour).  Store calls and the channel operations are modelled as explicit
oracle inputs.
-/

set_option linter.unusedVariables false
set_option maxRecDepth 4000

namespace Listmonk

/-- Go integer division (`/` on `int`/`int64`): truncated division. -/
def goDiv (a b : Int) : Int := Int.tdiv a b

/-- Campaign status constants from `models`. -/
def CampaignStatusRunning : String := "running"

def CampaignStatusScheduled : String := "scheduled"

def CampaignStatusPaused : String := "paused"

def CampaignStatusFinished : String := "finished"

/-- Bounce type constants from `models`. -/
def BounceTypeHard : String := "hard"

def BounceTypeSoft : String := "soft"

namespace Manager

/-- The manager configuration fields used by the pipe scheduler. -/
structure Cfg where
  batchSize : Int
  maxSendErrors : Int
deriving DecidableEq, Repr

/-- The campaign fields used by `NextSubscribers`.  `dailyQuota = some v`
models `DailyQuota.Valid = true` with `DailyQuota.Int = v`; `none` models an
SQL NULL (unlimited). -/
structure Camp where
  dailyQuota : Option Int
deriving DecidableEq, Repr

/-- The pipe counters touched by `NextSubscribers`: the atomic `scheduled`
message count for the current UTC hour and the UTC hour it is valid for. -/
structure PipeSched where
  scheduled : Int
  scheduledHour : Int
deriving DecidableEq, Repr

/-- Oracle inputs for one `NextSubscribers` call: the clock reads and the
store responses.  `fetch limit` is the list returned by
`store.NextSubscribers(campID, limit)`, one `Bool` per subscriber recording
whether `newMessage` (template rendering) succeeds for it. -/
structure NSEnv where
  /-- `time.Now().UTC().Hour()`. -/
  nowHour : Int
  /-- Nanoseconds from now until the top of the next UTC hour. -/
  nanosToNextHour : Int
  /-- Whether the first `GetCampaignHourlySent` call fails. -/
  sent1Err : Bool
  /-- Result of the first `GetCampaignHourlySent` call. -/
  sent1 : Int
  /-- Whether the `store.NextSubscribers` fetch fails. -/
  fetchErr : Bool
  /-- The subscribers returned for a given fetch limit. -/
  fetch : Int → List Bool
  /-- Result of the second (best-effort) `GetCampaignHourlySent` call. -/
  sent2 : Int

/-- Observable outcome of one `NextSubscribers` call.  Constructors carrying
a `limit` correspond to paths on which the store fetch was issued with that
limit.  `requeue w` is the quota-exhausted path: return `(false, nil)` after
spawning the self-requeue goroutine that waits `w` nanoseconds. -/
inductive NSOutcome where
  | hourlySentErr
  | requeue (wait : Int)
  | fetchFailed (limit : Int)
  | noSubs (limit : Int)
  | quotaGuard (limit : Int)
  | scheduledBatch (limit : Int) (released : Nat) (spacing : Int)
  | directBatch (limit : Int) (released : Nat)
deriving DecidableEq, Repr

/-- `time.Second` in nanoseconds. -/
def oneSecondNanos : Int := 1000000000

/-- The `processed` boolean returned by `NextSubscribers` on each path. -/
def processedOf : NSOutcome → Bool
  | .scheduledBatch _ _ _ => true
  | .directBatch _ _ => true
  | _ => false

/-- Whether `NextSubscribers` returns a non-nil error on the path. -/
def errOf : NSOutcome → Bool
  | .hourlySentErr => true
  | .fetchFailed _ => true
  | _ => false

/-- The limit passed to the store fetch, when the path reaches the fetch. -/
def limitOf : NSOutcome → Option Int
  | .hourlySentErr => none
  | .requeue _ => none
  | .fetchFailed l => some l
  | .noSubs l => some l
  | .quotaGuard l => some l
  | .scheduledBatch l _ _ => some l
  | .directBatch l _ => some l

/-- Number of messages handed off by the call: enqueued into `schedQ` on the
quota path, pushed to `campMsgQ` on the direct path. -/
def releasedOf : NSOutcome → Nat
  | .scheduledBatch _ n _ => n
  | .directBatch _ n => n
  | _ => 0

/-- Embedding of `pipe.NextSubscribers` (manager/pipe.go).  Mirrors the
source control flow:

1. `limit := cfg.BatchSize`.
2. `hasQuota := camp.DailyQuota.Valid && camp.DailyQuota.Int > 0`.
3. Quota branch: `perHour := (daily+23)/24`; reset `scheduled` on hour
   rollover; `allowed := perHour - sentThisHour - scheduled`; if
   `allowed <= 0` schedule a self-requeue after
   `max(time.Until(nextHour), time.Second)` and return `(false, nil)`;
   else `limit := min(limit, allowed)`.
4. Fetch up to `limit` subscribers; empty means `(false, nil)`.
5. Quota branch: recompute `remaining` (second store read, error ignored);
   guard `remaining <= 0`; raise `remaining` to `len(subs)` for the spacing
   computation `spacing = rest/remaining`; enqueue every subscriber whose
   rendering succeeds and add each to `scheduled`.  (The per-message release
   instants `now + i*spacing + jitter`, which depend on `rand`, are not
   carried in the outcome; `spacing` is.)
6. Direct branch: push every successfully rendered message to `campMsgQ`.
-/
def NextSubscribers (cfg : Cfg) (camp : Camp) (st : PipeSched) (env : NSEnv) :
    NSOutcome × PipeSched :=
  let limit0 := cfg.batchSize
  let d := camp.dailyQuota.getD 0
  if camp.dailyQuota.isSome = true ∧ 0 < d then
    let perHour := goDiv (d + 23) 24
    let st1 := if st.scheduledHour ≠ env.nowHour then
        { scheduled := 0, scheduledHour := env.nowHour } else st
    if env.sent1Err then (.hourlySentErr, st1)
    else
      let allowed := perHour - env.sent1 - st1.scheduled
      if allowed ≤ 0 then
        (.requeue (if env.nanosToNextHour < oneSecondNanos then oneSecondNanos
                   else env.nanosToNextHour), st1)
      else
        let limit := if allowed < limit0 then allowed else limit0
        if env.fetchErr then (.fetchFailed limit, st1)
        else
          let subs := env.fetch limit
          if subs.length = 0 then (.noSubs limit, st1)
          else
            let remaining := perHour - env.sent2 - st1.scheduled
            if remaining ≤ 0 then (.quotaGuard limit, st1)
            else
              let remaining2 := if remaining < (subs.length : Int) then
                  (subs.length : Int) else remaining
              let spacing := if 0 < remaining2 then
                  goDiv env.nanosToNextHour remaining2 else 0
              let released := (subs.filter (fun ok => ok)).length
              (.scheduledBatch limit released spacing,
               { st1 with scheduled := st1.scheduled + (released : Int) })
  else
    if env.fetchErr then (.fetchFailed limit0, st)
    else
      let subs := env.fetch limit0
      if subs.length = 0 then (.noSubs limit0, st)
      else (.directBatch limit0 ((subs.filter (fun ok => ok)).length), st)

/-- The storage contract of `store.NextSubscribers(campID, limit)`: at most
`limit` subscribers are returned. -/
def FetchContract (env : NSEnv) : Prop :=
  ∀ L : Int, (env.fetch L).length ≤ L.toNat

/-- Pipe error/stop flags (`errors`, `stopped`, `withErrors`). -/
structure ErrState where
  errors : Nat
  stopped : Bool
  withErrors : Bool
deriving DecidableEq, Repr

/-- Embedding of `pipe.Stop(withErrors)`: idempotent; a second call on an
already stopped pipe is a no-op (it does not set `withErrors`). -/
def Stop (withErr : Bool) (st : ErrState) : ErrState :=
  if st.stopped then st
  else { st with withErrors := if withErr then true else st.withErrors,
                 stopped := true }

/-- Embedding of `pipe.OnError`: no-op when `MaxSendErrors < 1` (the error
counter is not even incremented); otherwise increment the counter and call
`Stop(true)` once it reaches `MaxSendErrors`. -/
def OnError (maxSendErrors : Int) (st : ErrState) : ErrState :=
  if maxSendErrors < 1 then st
  else
    let count := st.errors + 1
    let st1 := { st with errors := count }
    if (count : Int) < maxSendErrors then st1
    else Stop true st1

/-- Embedding of the status-transition part of `pipe.cleanup()`.
`dbStatus = none` models a `GetCampaign` fetch error (early return).  Result:
(status written to the store, notification `(status, reason)` sent). -/
def cleanupTransition (st : ErrState) (dbStatus : Option String) :
    Option String × Option (String × String) :=
  if st.withErrors then
    (some CampaignStatusPaused, some (CampaignStatusPaused, "Too many errors"))
  else if st.stopped then (none, none)
  else
    match dbStatus with
    | none => (none, none)
    | some s =>
      if s = CampaignStatusRunning ∨ s = CampaignStatusScheduled then
        (some CampaignStatusFinished, some (CampaignStatusFinished, ""))
      else (none, some (s, ""))

/-- Calls of `NextSubscribers` performed within one fixed UTC hour `h`,
starting from the state right after the first call of the hour reset the
`scheduled` counter (`scheduled = 0`, `scheduledHour = h`).  `HourRun st n`
says the pipe can reach counter state `st` having released `n` messages
during the hour.  Each step requires the clock to still be in hour `h`, the
recorded hourly-sent count to be non-negative, and the store to honour the
fetch limit. -/
inductive HourRun (cfg : Cfg) (camp : Camp) (h : Int) : PipeSched → Nat → Prop where
  | init : HourRun cfg camp h ⟨0, h⟩ 0
  | step (st : PipeSched) (n : Nat) (env : NSEnv)
      (prev : HourRun cfg camp h st n)
      (hh : env.nowHour = h) (hs1 : 0 ≤ env.sent1) (hf : FetchContract env) :
      HourRun cfg camp h (NextSubscribers cfg camp st env).2
        (n + releasedOf (NextSubscribers cfg camp st env).1)

end Manager

namespace Email

/-- SMTP server configuration fields read by `Push` (email package). -/
structure Server where
  name : String
  username : String
  password : String
  authProtocol : String
  tlsType : String
  tlsSkipVerify : Bool
  host : String
  port : Int
deriving DecidableEq, Repr

/-- The `models.Message` fields relevant to `Push`.  `from` and `headers`
are present on the Go struct but are never read by this `Push`. -/
structure Msg where
  /-- The `From` field of `models.Message` (`from` is a Lean keyword). -/
  fromField : String
  /-- The `To` field of `models.Message` (`to` is a Lean keyword). -/
  toField : List String
  subject : String
  contentType : String
  body : String
  headers : List (String × String)
deriving DecidableEq, Repr

/-- net/mail `isVchar`: printable ASCII or multibyte. -/
def isVchar (c : Char) : Bool :=
  (33 ≤ c.toNat && c.toNat ≤ 126) || 127 < c.toNat

/-- net/mail `isWSP`. -/
def isWSP (c : Char) : Bool := c = ' ' || c = '\t'

/-- net/mail `isQtext`: vchar except double quote and backslash. -/
def isQtext (c : Char) : Bool :=
  !(c = '"' || c = '\\') && isVchar c

/-- net/mail `isAtext(r, dot)`: vchar minus the RFC 5322 specials, with the
dot admitted only when `dot` is set. -/
def isAtext (dot : Bool) (c : Char) : Bool :=
  if c = '.' then dot
  else if c = '(' || c = ')' || c = '<' || c = '>' || c = '[' || c = ']' ||
          c = ':' || c = ';' || c = '@' || c = '\\' || c = ',' || c = '"' then
    false
  else isVchar c

/-- net/mail `quoteString`: wrap in double quotes, escaping quote and
backslash, dropping characters that are neither qtext nor WSP nor vchar. -/
def quoteString (s : List Char) : List Char :=
  '"' :: s.foldr
    (fun c acc =>
      if isQtext c || isWSP c then c :: acc
      else if isVchar c then '\\' :: c :: acc
      else acc) ['"']

/-- The local-part quoting test from net/mail `Address.String`: a dot is
acceptable only when surrounded by non-dot material. -/
def localNeedsQuote (s : List Char) : Bool :=
  let n := s.length
  (List.range n).any (fun i =>
    let c := s.getD i ' '
    if isAtext false c then false
    else if c = '.' then
      !(decide (0 < i) && !(s.getD (i - 1) ' ' == '.') && decide (i < n - 1))
    else true)

/-- Index of the last `'@'` in the list, if any. -/
def lastAt (s : List Char) : Option Nat :=
  (s.foldl (fun (p : Nat × Option Nat) c =>
    (p.1 + 1, if c = '@' then some p.1 else p.2)) (0, none)).2

/-- net/mail `Address.String` for an address with no display name:
`<local@domain>`, quoting the local part when needed.  When the address has
no `'@'`, the whole address is treated as the local part. -/
def angleAddr (addr : String) : String :=
  let a := addr.data
  let (localPart, domain) :=
    match lastAt a with
    | none => (a, ([] : List Char))
    | some i => (a.take i, a.drop (i + 1))
  let localPart := if localNeedsQuote localPart then quoteString localPart
                   else localPart
  String.mk ('<' :: localPart ++ '@' :: domain ++ ['>'])

/-- net/mail `Address.String` restricted to the all-printable display names
that `Push` uses (the constant `"Listmonk Admin"`, or empty).  The RFC 2047
encoded-word branch is unreachable for these names and is not modelled. -/
def addressString (name : String) (addr : String) : String :=
  if name = "" then angleAddr addr
  else String.mk (quoteString name.data) ++ " " ++ angleAddr addr

/-- The first recipient, as `Push` extracts it (`m.To[0]`, or empty). -/
def recipientEmail (m : Msg) : String :=
  match m.toField with
  | [] => ""
  | t :: _ => t

/-- Embedding of the header map built by `Push` (email package), in
assignment order.  `nowNano` stands for `time.Now().UnixNano()` and
`dateStr` for the RFC 1123Z rendering of the current time (the time
formatting itself is not modelled).  The original message's `From` and
`Headers` are not consulted; the visible From is always
`"Listmonk Admin" <srv.Username>`, and the List-Unsubscribe / List-ID
copying is commented out in the source. -/
def PushHeaders (srv : Server) (m : Msg) (nowNano : Int) (dateStr : String) :
    List (String × String) :=
  [("From", addressString "Listmonk Admin" srv.username),
   ("To", addressString "" (recipientEmail m)),
   ("Subject", m.subject),
   ("MIME-Version", "1.0"),
   ("Content-Type",
     if m.contentType = "plain" then "text/plain; charset=\"UTF-8\""
     else "text/html; charset=\"UTF-8\""),
   ("Date", dateStr),
   ("Message-ID", "<" ++ toString nowNano ++ ".listmonk@" ++ srv.host ++ ">")]

/-- Lookup in the header map. -/
def headerGet (hs : List (String × String)) (k : String) : Option String :=
  (hs.find? (fun p => p.1 == k)).map (fun p => p.2)

/-- The argument `Push` passes to `c.Mail(...)`: always the server
username (`senderEmail := srv.Username`), independent of the message. -/
def PushMailFrom (srv : Server) (m : Msg) : String := srv.username

/-- The argument `Push` passes to `c.Rcpt(...)`. -/
def PushRcptTo (srv : Server) (m : Msg) : String := recipientEmail m

/-- Whether a string contains a given character (`strings.Contains` with a
one-character needle). -/
def containsChar (s : String) (c : Char) : Bool := s.data.contains c

/-- `pat` occurs as a contiguous substring of `s` starting at the front. -/
def startsWithSeq : List Char → List Char → Bool
  | [], _ => true
  | _ :: _, [] => false
  | p :: ps, c :: cs => p == c && startsWithSeq ps cs

/-- `pat` occurs as a contiguous substring of `s` (strings.Contains). -/
def hasInfix (pat : List Char) : List Char → Bool
  | [] => startsWithSeq pat []
  | c :: cs => startsWithSeq pat (c :: cs) || hasInfix pat cs

/-- strings.Contains on strings. -/
def containsSub (s pat : String) : Bool := hasInfix pat.data s.data

end Email

/-! ## UUID parsing (github.com/gofrs/uuid/v5 `FromString`) -/

/-- Hex digit, either case. -/
def isHexDigitCh (c : Char) : Bool :=
  c.isDigit || ('a' ≤ c && c ≤ 'f') || ('A' ≤ c && c ≤ 'F')

/-- gofrs `decodeCanonical`: 36 characters, dashes at byte offsets 8, 13,
18, 23, hex digits everywhere else. -/
def uuidCanonical (l : List Char) : Bool :=
  l.length == 36 &&
  (List.range 36).all (fun i =>
    let c := l.getD i ' '
    if i == 8 || i == 13 || i == 18 || i == 23 then c == '-'
    else isHexDigitCh c)

/-- gofrs `decodeHashLike`: 32 hex digits, no dashes. -/
def uuidHashLike (l : List Char) : Bool :=
  l.length == 32 && l.all isHexDigitCh

/-- gofrs `decodePlain`: dispatch on length between the two plain forms. -/
def uuidPlain (l : List Char) : Bool :=
  if l.length == 32 then uuidHashLike l
  else if l.length == 36 then uuidCanonical l
  else false

/-- gofrs `decodeBraced`: `\x7b` and `\x7d` around a plain form. -/
def uuidBraced (l : List Char) : Bool :=
  match l with
  | [] => false
  | c :: rest =>
    c == Char.ofNat 123 &&
    (match rest.reverse with
     | [] => false
     | d :: mid => d == Char.ofNat 125 && uuidPlain mid.reverse)

/-- ASCII-case-insensitive equality of a text against a lowercase pattern. -/
def eqFoldLower (pat : List Char) (l : List Char) : Bool :=
  match pat, l with
  | [], [] => true
  | p :: ps, c :: cs => c.toLower == p && eqFoldLower ps cs
  | _, _ => false

/-- gofrs `decodeURN`: a case-insensitive `urn:uuid:` followed by a plain
form. -/
def uuidURN (l : List Char) : Bool :=
  eqFoldLower "urn:uuid:".data (l.take 9) && uuidPlain (l.drop 9)

/-- gofrs/uuid v5 `FromString` (via `UnmarshalText`): succeeds exactly on
the canonical, hashlike, braced and URN text forms, for any UUID version
and variant (version bits are never inspected). -/
def uuidFromStringOk (s : String) : Bool :=
  let l := s.data
  match l.length with
  | 32 => uuidHashLike l
  | 34 => uuidBraced l
  | 36 => uuidCanonical l
  | 38 => uuidBraced l
  | 41 => uuidURN l
  | 45 => uuidURN l
  | _ => false

/-- The specification-side notion of a "valid v4-format UUID": canonical
form whose version nibble is `4` and whose variant character is one of
`8 9 a b` (either case).  This definition follows the wording of the spec,
for comparison against what the code enforces. -/
def isV4FormatSpec (s : String) : Bool :=
  uuidCanonical s.data &&
  s.data.getD 14 ' ' == '4' &&
  (let v := (s.data.getD 19 ' ').toLower
   v == '8' || v == '9' || v == 'a' || v == 'b')

namespace Mailbox

/-- pop.go `isValidUUID`: empty strings are invalid, everything else goes
through gofrs `uuid.FromString`. -/
def isValidUUID (s : String) : Bool :=
  if s == "" then false else uuidFromStringOk s

/-! ### `classifyBounce` and its two regular expressions

`reSMTPStatus = (?m)(?i)^(?:Status:\s*)?(?:\d{3}\s+)?([45]\.\d+\.\d+)`:
anchored at a line start, an optional case-insensitive `Status:` label with
trailing whitespace, an optional three-digit SMTP code followed by
whitespace, then the captured enhanced status code.  The matcher below
mirrors the leftmost-first semantics of Go's regexp engine; committing to
the optional prefixes is sound because after consuming either prefix the
fallback alternative can never match (the next character is a letter or a
digit in the wrong place). -/

/-- Go regexp `\s`. -/
def isWS (c : Char) : Bool :=
  c = ' ' || c = '\t' || c = '\n' || c = '\x0c' || c = '\r'

/-- Match a lowercase literal case-insensitively at the front, returning the
remainder. -/
def dropLit : List Char → List Char → Option (List Char)
  | [], cs => some cs
  | _ :: _, [] => none
  | p :: ps, c :: cs => if c.toLower == p then dropLit ps cs else none

/-- `(?:\d{3}\s+)?` committed: three digits followed by at least one
whitespace character, consuming all following whitespace (greedy). -/
def dropDigits3WS (cs : List Char) : Option (List Char) :=
  match cs with
  | d1 :: d2 :: d3 :: rest =>
    if d1.isDigit && d2.isDigit && d3.isDigit then
      match rest with
      | c :: _ => if isWS c then some (rest.dropWhile isWS) else none
      | [] => none
    else none
  | _ => none

/-- `([45]\.\d+\.\d+)`: the captured status code. -/
def statusCore (cs : List Char) : Option (List Char) :=
  match cs with
  | c :: '.' :: rest =>
    if c == '4' || c == '5' then
      let ds1 := rest.takeWhile Char.isDigit
      if ds1.length == 0 then none
      else
        match rest.drop ds1.length with
        | '.' :: rest2 =>
          let ds2 := rest2.takeWhile Char.isDigit
          if ds2.length == 0 then none
          else some (c :: '.' :: ds1 ++ '.' :: ds2)
        | _ => none
    else none
  | _ => none

/-- One attempt of `reSMTPStatus` at a line-start position. -/
def matchStatusAt (cs : List Char) : Option (List Char) :=
  let cs1 := match dropLit "status:".data cs with
    | some rest => rest.dropWhile isWS
    | none => cs
  let cs2 := match dropDigits3WS cs1 with
    | some rest => rest
    | none => cs1
  statusCore cs2

/-- The capture of the first (leftmost) `reSMTPStatus` match: scan the body
left to right, attempting the pattern at every line start. -/
def findStatus : List Char → Bool → Option (List Char)
  | [], _ => none
  | c :: rest, atStart =>
    match (if atStart then matchStatusAt (c :: rest) else none) with
    | some cap => some cap
    | none => findStatus rest (c == '\n')

/-!
`reHardBounce = (?i)(NXDOMAIN|user unknown|...|address.*disabled)`:
an unanchored case-insensitive alternation; some alternatives contain `.*`
(greedy, not crossing a newline).  `FindSubmatch` returns the leftmost
match, preferring earlier alternatives at the same position, with greedy
`.*`. -/

/-- One alternative of `reHardBounce`: a plain literal or
`before.*after`. -/
inductive KwPat where
  | lit (s : String)
  | wild (before after : String)

/-- The alternatives of `reHardBounce`, in alternation order, stored
lowercase for the `(?i)` matching. -/
def kwPats : List KwPat :=
  [.lit "nxdomain", .lit "user unknown", .lit "address not found",
   .lit "mailbox not found", .wild "address" "reject", .lit "does not exist",
   .lit "invalid recipient", .lit "no such user", .wild "recipient" "invalid",
   .lit "undeliverable", .wild "permanent" "failure",
   .wild "permanent" "error", .wild "bad" "address", .wild "unknown" "user",
   .wild "account" "disabled", .wild "address" "disabled"]

/-- The largest `k ≤ n` satisfying `p`. -/
def greatestK (n : Nat) (p : Nat → Bool) : Option Nat :=
  (List.range (n + 1)).reverse.find? p

/-- Match length of one alternative at the current position: for `wild`,
`.*` greedily consumes as much of the current line as still lets the second
literal match. -/
def kwMatchLen (p : KwPat) (cs : List Char) : Option Nat :=
  match p with
  | .lit s => (dropLit s.data cs).map (fun _ => s.data.length)
  | .wild a b =>
    match dropLit a.data cs with
    | none => none
    | some rest =>
      let lineN := (rest.takeWhile (fun c => !(c == '\n'))).length
      match greatestK lineN (fun k => (dropLit b.data (rest.drop k)).isSome) with
      | some k => some (a.data.length + k + b.data.length)
      | none => none

/-- First alternative (in order) matching at the current position. -/
def kwMatchAt (cs : List Char) : Option Nat :=
  kwPats.findSome? (fun p => kwMatchLen p cs)

/-- Leftmost `reHardBounce` match: the captured text, in original case. -/
def findKw : List Char → Option (List Char)
  | [] => none
  | c :: rest =>
    match kwMatchAt (c :: rest) with
    | some n => some ((c :: rest).take n)
    | none => findKw rest

/-- Embedding of pop.go `classifyBounce`.  The source iterates all
`reSMTPStatus` matches, but every capture starts with `'4'` or `'5'`, so
the first match always decides; the keyword heuristic is consulted only
when the status regex does not match at all, and the final default is
`(soft, "default")`. -/
def classifyBounce (b : String) : String × String :=
  match findStatus b.data true with
  | some (c :: capRest) =>
    if c == '5' then
      (BounceTypeHard, "smtp_status=" ++ String.mk (c :: capRest))
    else if c == '4' then
      (BounceTypeSoft, "smtp_status=" ++ String.mk (c :: capRest))
    else
      match findKw b.data with
      | some kw => (BounceTypeHard, "body_match=" ++ String.mk kw)
      | none => (BounceTypeSoft, "default")
  | _ =>
    match findKw b.data with
    | some kw => (BounceTypeHard, "body_match=" ++ String.mk kw)
    | none => (BounceTypeSoft, "default")

/-! ### `Scan` download/emit/delete skeleton

The counting skeleton of pop.go `Scan` on a cycle without POP3 or parse
errors: `count` messages are reported by `Stat`; at most `limit` of them
are downloaded when `limit > 0`; for each downloaded message one `Bounce`
is offered to the channel through `select { case ch <- b: default: }`,
which silently drops the value when the channel cannot accept it; finally
every downloaded message id is deleted.  The channel is modelled by the
number of sends it can absorb during the cycle. -/

/-- The per-message emission loop: each message takes a free slot if one is
available, otherwise the `default` branch drops the bounce. -/
def emitLoop : Nat → Nat → Nat
  | 0, _ => 0
  | n + 1, free => if free = 0 then emitLoop n 0 else 1 + emitLoop n (free - 1)

/-- `(downloaded, emitted, deleted)` of one error-free `Scan` cycle. -/
def Scan (serverCount : Nat) (limit : Int) (freeSlots : Nat) :
    Nat × Nat × Nat :=
  if serverCount = 0 then (0, 0, 0)
  else
    let count := if 0 < limit ∧ limit < (serverCount : Int) then limit.toNat
                 else serverCount
    (count, emitLoop count freeSlots, count)

end Mailbox

namespace Core

/-- Errors surfaced by the `RecordBounce.Exec` call: a `*pq.Error` with its
`Column` field, or any other error. -/
inductive GoErr where
  | pq (column : String) (msg : String)
  | other (msg : String)
deriving DecidableEq, Repr

/-- The `models.Bounce` fields used by `Core.RecordBounce` (`type` is a
Lean keyword; `btype` holds it). -/
structure Bounce where
  subscriberUUID : String
  campaignUUID : String
  email : String
  btype : String
  source : String
deriving DecidableEq, Repr

/-- The values handed to the insert statement. -/
structure BounceRow where
  subscriberUUID : String
  campaignUUID : String
  email : String
  btype : String
  source : String
deriving DecidableEq, Repr

/-- Result of `Core.RecordBounce`: the bad-request rejection for an unknown
bounce type, or the persisted row together with the error value returned to
the caller. -/
inductive RecordOutcome where
  | badRequest
  | done (row : BounceRow) (ret : Option GoErr)
deriving DecidableEq, Repr

/-- The UUID normalisation applied inside `RecordBounce`: a non-empty value
that `uuid.FromString` rejects is replaced by the empty string so the
email-based fallback can work. -/
def uuidNormalize (s : String) : String :=
  if s == "" then s
  else if uuidFromStringOk s then s else ""

/-- Embedding of `Core.RecordBounce` (internal/core/bounces.go).  `actions`
is the key set of `consts.BounceActions`; `exec` the outcome of the insert.
A `*pq.Error` blaming the `subscriber_id` column (bounced subscriber not in
storage) is logged and swallowed (`nil` returned); every other error is
returned as-is. -/
def RecordBounce (actions : List String) (b : Bounce) (exec : Option GoErr) :
    RecordOutcome :=
  if actions.contains b.btype then
    let row : BounceRow :=
      { subscriberUUID := uuidNormalize b.subscriberUUID,
        campaignUUID := uuidNormalize b.campaignUUID,
        email := b.email, btype := b.btype, source := b.source }
    let ret : Option GoErr :=
      match exec with
      | none => none
      | some (.pq col msg) =>
        if col == "subscriber_id" then none else some (.pq col msg)
      | some (.other msg) => some (.other msg)
    .done row ret
  else .badRequest

/-- The persisted row of an outcome, when the insert was attempted. -/
def rowOf : RecordOutcome → Option BounceRow
  | .badRequest => none
  | .done row _ => some row

/-- The error value returned to the caller, when the insert was attempted. -/
def retOf : RecordOutcome → Option (Option GoErr)
  | .badRequest => none
  | .done _ ret => some ret

/-- Whether an exec error is the swallowed `subscriber_id` `*pq.Error`. -/
def isSubscriberIdPq : GoErr → Bool
  | .pq col _ => col == "subscriber_id"
  | .other _ => false

end Core

/-! ## Concrete fixtures used by witnesses and counterexamples -/

/-- A Gmail-style SMTP server configuration. -/
def srv1 : Email.Server :=
  { name := "gmail", username := "user@gmail.com", password := "p",
    authProtocol := "plain", tlsType := "STARTTLS", tlsSkipVerify := false,
    host := "smtp.gmail.com", port := 587 }

/-- A campaign message whose `From` names a third party and which carries
the campaign-attached headers. -/
def m1 : Email.Msg :=
  { fromField := "\"Alice\" <alice@example.org>",
    toField := ["bob@x.com"], subject := "Hello", contentType := "html",
    body := "hi",
    headers := [("X-Listmonk-Campaign", "550e8400-e29b-41d4-a716-446655440000"),
                ("X-Listmonk-Subscriber", "650e8400-e29b-41d4-a716-446655440000"),
                ("List-Unsubscribe", "https://lists.example.org/u"),
                ("List-Unsubscribe-Post", "List-Unsubscribe=One-Click")] }

/-- A bounce whose subscriber UUID is the nil UUID (canonical form, version
nibble 0) and whose campaign UUID is malformed. -/
def b2 : Core.Bounce :=
  { subscriberUUID := "00000000-0000-0000-0000-000000000000",
    campaignUUID := "not-a-uuid", email := "bob@x.com", btype := "hard",
    source := "pop" }

/-- The row `RecordBounce` persists for `b2`. -/
def row2 : Core.BounceRow :=
  { subscriberUUID := "00000000-0000-0000-0000-000000000000",
    campaignUUID := "", email := "bob@x.com", btype := "hard",
    source := "pop" }

/-- A plain bounce with well-formed UUIDs. -/
def b1 : Core.Bounce :=
  { subscriberUUID := "650e8400-e29b-41d4-a716-446655440000",
    campaignUUID := "550e8400-e29b-41d4-a716-446655440000",
    email := "bob@x.com", btype := "hard", source := "pop" }

/-- Manager config: batch 10, max 5 send errors. -/
def cfg0 : Manager.Cfg := ⟨10, 5⟩

/-- A campaign with `daily_quota = 24` (one message per UTC hour). -/
def camp0 : Manager.Camp := ⟨some 24⟩

/-- A call environment at UTC hour 3, 30 minutes before hour 4, nothing
sent yet this hour, store returning as many subscribers as requested. -/
def env1 : Manager.NSEnv :=
  { nowHour := 3, nanosToNextHour := 1800000000000, sent1Err := false,
    sent1 := 0, fetchErr := false,
    fetch := fun L => List.replicate L.toNat true, sent2 := 0 }

/-- The same call environment as `env1` but with the hourly-sent count
already at the full per-hour allowance, so the quota is exhausted. -/
def env2 : Manager.NSEnv :=
  { nowHour := 3, nanosToNextHour := 1800000000000, sent1Err := false,
    sent1 := 24, fetchErr := false,
    fetch := fun L => List.replicate L.toNat true, sent2 := 24 }

/-! ## Shared lemmas -/

/-- Go `(d+23)/24` on positive `d` is exactly the ceiling of `d/24`: the
least integer `k` with `d ≤ 24*k` (and it is positive). -/
theorem goDiv_add23_ceil (d : Int) (hd : 0 < d) :
    d ≤ 24 * goDiv (d + 23) 24 ∧ 24 * (goDiv (d + 23) 24 - 1) < d ∧
    0 < goDiv (d + 23) 24 := by
  lift d to ℕ using hd.le
  have h1 : ((d : Int) + 23) = ((d + 23 : ℕ) : Int) := by push_cast; ring
  have h2 : goDiv ((d + 23 : ℕ) : Int) 24 = (((d + 23) / 24 : ℕ) : Int) := rfl
  rw [h1, h2]
  have hd' : 0 < d := by exact_mod_cast hd
  refine ⟨?_, ?_, ?_⟩ <;> [skip; skip; skip] <;>
    · push_cast
      omega

/-- `uuidNormalize` always yields either the empty string or a string the
UUID parser accepts. -/
theorem uuidNormalize_valid (s : String) :
    Core.uuidNormalize s = "" ∨ uuidFromStringOk (Core.uuidNormalize s) = true := by
  unfold Core.uuidNormalize
  by_cases h0 : s = ""
  · subst h0; simp
  · simp only [beq_iff_eq, if_neg h0]
    by_cases h1 : uuidFromStringOk s
    · right; simp [h1]
    · left; simp [h1]

/-- A string the UUID parser rejects is normalised to the empty string. -/
theorem uuidNormalize_reject (s : String) (h : uuidFromStringOk s = false) :
    Core.uuidNormalize s = "" := by
  unfold Core.uuidNormalize
  by_cases h0 : s = ""
  · subst h0; simp
  · simp [h0, h]

/-- The emission loop never emits more than the number of messages. -/
theorem emitLoop_le (n free : Nat) : Mailbox.emitLoop n free ≤ n := by
  induction n generalizing free with
  | zero => simp [Mailbox.emitLoop]
  | succ k ih =>
    unfold Mailbox.emitLoop
    split
    · exact (ih 0).trans (Nat.le_succ k)
    · have := ih (free - 1); omega

/-! ## Claim theorems -/

/-- C9: for every send through the SMTP messenger on a server whose
username is an email address `u@d`, the argument of the `MAIL FROM` command
(`c.Mail(senderEmail)`) is exactly the server username. -/
theorem c9_mail_from_is_username (srv : Email.Server) (m : Email.Msg)
    (h : Email.containsChar srv.username '@' = true) :
    Email.PushMailFrom srv m = srv.username := rfl

/-- C9 witness: concrete Gmail-style server. -/
theorem c9_mail_from_is_username_witness :
    Email.containsChar srv1.username '@' = true ∧
    Email.PushMailFrom srv1 m1 = "user@gmail.com" :=
  ⟨by decide, c9_mail_from_is_username srv1 m1 (by decide)⟩

/-- C1 counterexample: the message `From` names Alice and does not contain
the server username, yet `Push` builds the visible From as the fixed
`"Listmonk Admin" <username>` (not Alice's display name) and sets no
`Reply-To` header at all. -/
theorem c1_from_rewrite_counterexample :
    Email.containsSub m1.fromField "user@gmail.com" = false ∧
    Email.headerGet (Email.PushHeaders srv1 m1 1700000000000000000
        "Wed, 01 Jan 2025 00:00:00 +0000") "From" =
      some "\"Listmonk Admin\" <user@gmail.com>" ∧
    Email.headerGet (Email.PushHeaders srv1 m1 1700000000000000000
        "Wed, 01 Jan 2025 00:00:00 +0000") "From" ≠
      some "\"Alice\" <user@gmail.com>" ∧
    Email.headerGet (Email.PushHeaders srv1 m1 1700000000000000000
        "Wed, 01 Jan 2025 00:00:00 +0000") "Reply-To" = none := by
  decide

/-- C1 amended: for every SMTP `Push`, regardless of the message's original
`From` header, the visible `From` header is rewritten to the fixed display
name `"Listmonk Admin"` paired with the server username, and no `Reply-To`
header is set. -/
theorem c1_from_rewrite_amended (srv : Email.Server) (m : Email.Msg)
    (nowNano : Int) (dateStr : String) :
    Email.headerGet (Email.PushHeaders srv m nowNano dateStr) "From" =
      some (Email.addressString "Listmonk Admin" srv.username) ∧
    Email.headerGet (Email.PushHeaders srv m nowNano dateStr) "Reply-To" =
      none :=
  ⟨rfl, rfl⟩

/-- C7 counterexample: even though the message carries the campaign
headers, the built header map drops `X-Listmonk-Campaign`,
`X-Listmonk-Subscriber`, `List-Unsubscribe` and `List-Unsubscribe-Post`
(the copying is commented out in `Push`). -/
theorem c7_headers_counterexample :
    (m1.headers.map Prod.fst).contains "X-Listmonk-Campaign" = true ∧
    (m1.headers.map Prod.fst).contains "List-Unsubscribe" = true ∧
    Email.headerGet (Email.PushHeaders srv1 m1 1700000000000000000
        "Wed, 01 Jan 2025 00:00:00 +0000") "X-Listmonk-Campaign" = none ∧
    Email.headerGet (Email.PushHeaders srv1 m1 1700000000000000000
        "Wed, 01 Jan 2025 00:00:00 +0000") "X-Listmonk-Subscriber" = none ∧
    Email.headerGet (Email.PushHeaders srv1 m1 1700000000000000000
        "Wed, 01 Jan 2025 00:00:00 +0000") "List-Unsubscribe" = none ∧
    Email.headerGet (Email.PushHeaders srv1 m1 1700000000000000000
        "Wed, 01 Jan 2025 00:00:00 +0000") "List-Unsubscribe-Post" = none := by
  decide

/-- C7 amended: every dispatched message carries the headers
`MIME-Version: 1.0`, the `Date` string, a `Message-ID` of the form
`<unix_nano.listmonk@{server.host}>` and a `Content-Type` derived from the
message `ContentType` — these are set unconditionally, not only when
absent — while the campaign-attached headers `X-Listmonk-Campaign`,
`X-Listmonk-Subscriber`, `List-Unsubscribe` and `List-Unsubscribe-Post`
are never emitted. -/
theorem c7_headers_amended (srv : Email.Server) (m : Email.Msg)
    (nowNano : Int) (dateStr : String) :
    Email.headerGet (Email.PushHeaders srv m nowNano dateStr) "MIME-Version" =
      some "1.0" ∧
    Email.headerGet (Email.PushHeaders srv m nowNano dateStr) "Date" =
      some dateStr ∧
    Email.headerGet (Email.PushHeaders srv m nowNano dateStr) "Message-ID" =
      some ("<" ++ toString nowNano ++ ".listmonk@" ++ srv.host ++ ">") ∧
    Email.headerGet (Email.PushHeaders srv m nowNano dateStr) "Content-Type" =
      some (if m.contentType = "plain" then "text/plain; charset=\"UTF-8\""
            else "text/html; charset=\"UTF-8\"") ∧
    Email.headerGet (Email.PushHeaders srv m nowNano dateStr)
      "X-Listmonk-Campaign" = none ∧
    Email.headerGet (Email.PushHeaders srv m nowNano dateStr)
      "X-Listmonk-Subscriber" = none ∧
    Email.headerGet (Email.PushHeaders srv m nowNano dateStr)
      "List-Unsubscribe" = none ∧
    Email.headerGet (Email.PushHeaders srv m nowNano dateStr)
      "List-Unsubscribe-Post" = none :=
  ⟨rfl, rfl, rfl, rfl, rfl, rfl, rfl, rfl⟩

/-- C5 counterexample: the body `"oops 5.1.1"` contains the enhanced status
code `5.1.1`, but not at a line start, so `reSMTPStatus` (which anchors at
`^`) does not match; no keyword matches either, and the bounce is
classified `(soft, "default")` instead of hard with
`smtp_status=5.1.1`. -/
theorem c5_classify_counterexample :
    Email.containsSub "oops 5.1.1" "5.1.1" = true ∧
    Mailbox.classifyBounce "oops 5.1.1" = (BounceTypeSoft, "default") ∧
    Mailbox.classifyBounce "oops 5.1.1" ≠
      (BounceTypeHard, "smtp_status=5.1.1") := by
  decide

/-- C5 amended: an SMTP enhanced status code matched at the start of a line
(optionally preceded by a `Status:` label and/or a three-digit SMTP code)
classifies the bounce: `5.x.x` as hard and `4.x.x` as soft, with reason
`smtp_status=<code>`, taking precedence over the hard-bounce keyword
heuristics; with neither a status-code match nor a keyword match the
classification is soft with reason `"default"`. -/
theorem c5_classify_amended (b : String) (cap : List Char) :
    (Mailbox.findStatus b.data true = some ('5' :: cap) →
      Mailbox.classifyBounce b =
        (BounceTypeHard, "smtp_status=" ++ String.mk ('5' :: cap))) ∧
    (Mailbox.findStatus b.data true = some ('4' :: cap) →
      Mailbox.classifyBounce b =
        (BounceTypeSoft, "smtp_status=" ++ String.mk ('4' :: cap))) ∧
    (Mailbox.findStatus b.data true = none → Mailbox.findKw b.data = none →
      Mailbox.classifyBounce b = (BounceTypeSoft, "default")) := by
  refine ⟨?_, ?_, ?_⟩
  · intro h
    unfold Mailbox.classifyBounce
    rw [h]
    simp
  · intro h
    unfold Mailbox.classifyBounce
    rw [h]
    simp
  · intro h1 h2
    unfold Mailbox.classifyBounce
    rw [h1, h2]

/-- C5 witness: the spec scenario S5 — a body holding both `Status: 5.1.1`
and the `user unknown` keyword is classified hard with the status reason
(the status code wins over the keyword). -/
theorem c5_classify_amended_witness :
    Mailbox.classifyBounce "Status: 5.1.1\nuser unknown" =
      (BounceTypeHard, "smtp_status=" ++ String.mk ('5' :: ".1.1".data)) :=
  (c5_classify_amended "Status: 5.1.1\nuser unknown" ".1.1".data).1 (by decide)

/-- C4 counterexample: a pipe that was already stopped (manually) when the
error counter reached `MaxSendErrors = 5`: `OnError` does call `Stop(true)`,
but `Stop` is a no-op on a stopped pipe, `withErrors` stays false, and the
cleanup does not transition the campaign to paused. -/
theorem c4_onerror_counterexample :
    (Manager.OnError 5 ⟨4, true, false⟩).errors = 5 ∧
    (Manager.OnError 5 ⟨4, true, false⟩).withErrors = false ∧
    Manager.cleanupTransition (Manager.OnError 5 ⟨4, true, false⟩)
        (some CampaignStatusRunning) ≠
      (some CampaignStatusPaused,
       some (CampaignStatusPaused, "Too many errors")) := by
  decide

/-- C4 amended: with `MaxSendErrors > 0`, once the error counter reaches
`MaxSendErrors` on a pipe that is not already stopped, `OnError` stops the
pipe with `withErrors` set and the subsequent cleanup transitions the
campaign to paused with the "Too many errors" notification; with
`MaxSendErrors ≤ 0`, `OnError` is a no-op (it never stops the pipe, and
does not even increment the counter). -/
theorem c4_onerror_amended (maxE : Int) (st : Manager.ErrState)
    (db : Option String) :
    (0 < maxE → st.stopped = false → maxE ≤ ((st.errors + 1 : Nat) : Int) →
      (Manager.OnError maxE st).stopped = true ∧
      (Manager.OnError maxE st).withErrors = true ∧
      Manager.cleanupTransition (Manager.OnError maxE st) db =
        (some CampaignStatusPaused,
         some (CampaignStatusPaused, "Too many errors"))) ∧
    (maxE < 1 → Manager.OnError maxE st = st) := by
  constructor
  · intro h1 h2 h3
    have hx : ¬ maxE < 1 := by omega
    have hy : ¬ ((st.errors + 1 : Nat) : Int) < maxE := by omega
    unfold Manager.OnError Manager.Stop
    simp only [if_neg hx, if_neg hy, h2]
    simp [Manager.cleanupTransition]
  · intro h1
    unfold Manager.OnError
    simp [h1]

/-- C4 witness: a live pipe with two prior errors and `MaxSendErrors = 3`
is stopped and paused on the third error; with `MaxSendErrors = 0` the
state is untouched. -/
theorem c4_onerror_amended_witness :
    ((Manager.OnError 3 ⟨2, false, false⟩).stopped = true ∧
     (Manager.OnError 3 ⟨2, false, false⟩).withErrors = true ∧
     Manager.cleanupTransition (Manager.OnError 3 ⟨2, false, false⟩)
         (some CampaignStatusRunning) =
       (some CampaignStatusPaused,
        some (CampaignStatusPaused, "Too many errors"))) ∧
    Manager.OnError 0 ⟨7, false, false⟩ = ⟨7, false, false⟩ :=
  ⟨(c4_onerror_amended 3 ⟨2, false, false⟩ (some CampaignStatusRunning)).1
      (by decide) rfl (by decide),
   (c4_onerror_amended 0 ⟨7, false, false⟩ none).2 (by decide)⟩

/-- C6 counterexample: the nil UUID `00000000-0000-0000-0000-000000000000`
is accepted by `uuid.FromString` (which never inspects version bits) and is
persisted unchanged by `RecordBounce`, although it is not a v4-format UUID
and not empty. -/
theorem c6_uuid_counterexample :
    (Core.rowOf (Core.RecordBounce ["hard"] b2 none)).map
        Core.BounceRow.subscriberUUID =
      some "00000000-0000-0000-0000-000000000000" ∧
    isV4FormatSpec "00000000-0000-0000-0000-000000000000" = false ∧
    "00000000-0000-0000-0000-000000000000" ≠ "" := by
  decide

/-- C6 amended: every persisted bounce row has, in each of its uuid fields,
either the empty string or a value accepted by the UUID parser (any UUID
version, and any of its accepted text forms — not necessarily v4 format);
an extracted value the parser rejects is normalised to the empty string so
the email-based fallback applies at record time. -/
theorem c6_uuid_amended (actions : List String) (b : Core.Bounce)
    (exec : Option Core.GoErr) (row : Core.BounceRow)
    (ret : Option Core.GoErr)
    (h : Core.RecordBounce actions b exec = .done row ret) :
    (row.subscriberUUID = "" ∨ uuidFromStringOk row.subscriberUUID = true) ∧
    (row.campaignUUID = "" ∨ uuidFromStringOk row.campaignUUID = true) ∧
    (uuidFromStringOk b.subscriberUUID = false → row.subscriberUUID = "") ∧
    (uuidFromStringOk b.campaignUUID = false → row.campaignUUID = "") := by
  unfold Core.RecordBounce at h
  by_cases hm : actions.contains b.btype = true
  · rw [if_pos hm] at h
    injection h with hrow hret
    subst hrow
    refine ⟨uuidNormalize_valid _, uuidNormalize_valid _, ?_, ?_⟩
    · intro hbad; exact uuidNormalize_reject _ hbad
    · intro hbad; exact uuidNormalize_reject _ hbad
  · rw [if_neg hm] at h
    exact absurd h (by simp)

/-- C6 witness: the fixture bounce `b2` is persisted with its (parsable)
nil subscriber UUID kept and its malformed campaign UUID emptied. -/
theorem c6_uuid_amended_witness :
    (row2.subscriberUUID = "" ∨ uuidFromStringOk row2.subscriberUUID = true) ∧
    (row2.campaignUUID = "" ∨ uuidFromStringOk row2.campaignUUID = true) ∧
    (uuidFromStringOk b2.subscriberUUID = false → row2.subscriberUUID = "") ∧
    (uuidFromStringOk b2.campaignUUID = false → row2.campaignUUID = "") :=
  c6_uuid_amended ["hard"] b2 none row2 none (by decide)

/-- C8 counterexample: one message on the server, `limit = 5`, but the
bounce channel cannot absorb any send during the cycle: the message is
downloaded and deleted, yet zero bounces are emitted — the non-blocking
`select` with a `default` branch silently drops the value, so emission is
not "exactly one per downloaded message". -/
theorem c8_scan_counterexample :
    Mailbox.Scan 1 5 0 = (1, 0, 1) ∧
    (Mailbox.Scan 1 5 0).2.1 ≠ (Mailbox.Scan 1 5 0).1 := by
  decide

/-- C8 amended: per error-free scan cycle with `limit > 0`, at most `limit`
messages are downloaded, at most one bounce is emitted per downloaded
message (a bounce is silently dropped when the channel cannot accept it),
and every downloaded message is deleted from the server. -/
theorem c8_scan_amended (serverCount : Nat) (limit : Int) (free : Nat)
    (h : 0 < limit) :
    ((Mailbox.Scan serverCount limit free).1 : Int) ≤ limit ∧
    (Mailbox.Scan serverCount limit free).2.1 ≤
      (Mailbox.Scan serverCount limit free).1 ∧
    (Mailbox.Scan serverCount limit free).2.2 =
      (Mailbox.Scan serverCount limit free).1 := by
  unfold Mailbox.Scan
  by_cases h0 : serverCount = 0
  · subst h0
    rw [if_pos rfl]
    exact ⟨by omega, Nat.le_refl 0, rfl⟩
  · rw [if_neg h0]
    by_cases h1 : 0 < limit ∧ limit < (serverCount : Int)
    · rw [if_pos h1]
      refine ⟨?_, emitLoop_le _ _, rfl⟩
      show ((limit.toNat : Nat) : Int) ≤ limit
      omega
    · rw [if_neg h1]
      refine ⟨?_, emitLoop_le _ _, rfl⟩
      show ((serverCount : Nat) : Int) ≤ limit
      have h2 : ¬ limit < (serverCount : Int) := fun hlt => h1 ⟨h, hlt⟩
      omega

/-- C8 witness: ten messages, `limit = 5`, a fully available channel. -/
theorem c8_scan_amended_witness :
    ((Mailbox.Scan 10 5 100).1 : Int) ≤ 5 ∧
    (Mailbox.Scan 10 5 100).2.1 ≤ (Mailbox.Scan 10 5 100).1 ∧
    (Mailbox.Scan 10 5 100).2.2 = (Mailbox.Scan 10 5 100).1 :=
  c8_scan_amended 10 5 100 (by decide)

/-- C10: for every bounce insert failing with a `*pq.Error` attributed to
the `subscriber_id` column, `RecordBounce` swallows the error and returns
nil; any other insert error is returned to the caller. -/
theorem c10_record_bounce_errors (actions : List String) (b : Core.Bounce)
    (msg : String) (e : Core.GoErr)
    (hmem : actions.contains b.btype = true)
    (he : Core.isSubscriberIdPq e = false) :
    Core.retOf (Core.RecordBounce actions b
        (some (.pq "subscriber_id" msg))) = some none ∧
    Core.retOf (Core.RecordBounce actions b (some e)) = some (some e) := by
  constructor
  · unfold Core.RecordBounce
    rw [if_pos hmem]
    simp [Core.retOf]
  · cases e with
    | pq col m =>
      simp only [Core.isSubscriberIdPq] at he
      unfold Core.RecordBounce
      rw [if_pos hmem]
      simp [Core.retOf, he]
    | other m =>
      unfold Core.RecordBounce
      rw [if_pos hmem]
      simp [Core.retOf]

/-- C10 witness: the fixture bounce `b1` with a `subscriber_id` pq error
(swallowed) and a generic error (propagated). -/
theorem c10_record_bounce_errors_witness :
    Core.retOf (Core.RecordBounce ["hard"] b1
        (some (.pq "subscriber_id" "missing"))) = some none ∧
    Core.retOf (Core.RecordBounce ["hard"] b1 (some (.other "boom"))) =
      some (some (.other "boom")) :=
  c10_record_bounce_errors ["hard"] b1 "missing" (.other "boom")
    (by decide) (by decide)

/-- On a campaign with a positive daily quota and no hour rollover,
`NextSubscribers` reduces to the explicit quota-path decision tree (shared
shape lemma used by the quota claims). -/
theorem NextSubscribers_quota_eq (cfg : Manager.Cfg) (camp : Manager.Camp)
    (st : Manager.PipeSched) (env : Manager.NSEnv) (d : Int)
    (hd : camp.dailyQuota = some d) (hdp : 0 < d)
    (hh : st.scheduledHour = env.nowHour) :
    Manager.NextSubscribers cfg camp st env =
      (if env.sent1Err then (.hourlySentErr, st)
       else if goDiv (d + 23) 24 - env.sent1 - st.scheduled ≤ 0 then
         (.requeue (if env.nanosToNextHour < Manager.oneSecondNanos then
             Manager.oneSecondNanos else env.nanosToNextHour), st)
       else if env.fetchErr then
         (.fetchFailed (if goDiv (d + 23) 24 - env.sent1 - st.scheduled <
              cfg.batchSize then goDiv (d + 23) 24 - env.sent1 - st.scheduled
            else cfg.batchSize), st)
       else if (env.fetch (if goDiv (d + 23) 24 - env.sent1 - st.scheduled <
              cfg.batchSize then goDiv (d + 23) 24 - env.sent1 - st.scheduled
            else cfg.batchSize)).length = 0 then
         (.noSubs (if goDiv (d + 23) 24 - env.sent1 - st.scheduled <
              cfg.batchSize then goDiv (d + 23) 24 - env.sent1 - st.scheduled
            else cfg.batchSize), st)
       else if goDiv (d + 23) 24 - env.sent2 - st.scheduled ≤ 0 then
         (.quotaGuard (if goDiv (d + 23) 24 - env.sent1 - st.scheduled <
              cfg.batchSize then goDiv (d + 23) 24 - env.sent1 - st.scheduled
            else cfg.batchSize), st)
       else
         (.scheduledBatch
            (if goDiv (d + 23) 24 - env.sent1 - st.scheduled < cfg.batchSize
             then goDiv (d + 23) 24 - env.sent1 - st.scheduled
             else cfg.batchSize)
            ((env.fetch (if goDiv (d + 23) 24 - env.sent1 - st.scheduled <
                  cfg.batchSize then
                goDiv (d + 23) 24 - env.sent1 - st.scheduled
              else cfg.batchSize)).filter (fun ok => ok)).length
            (if 0 < (if goDiv (d + 23) 24 - env.sent2 - st.scheduled <
                  ((env.fetch (if goDiv (d + 23) 24 - env.sent1 -
                        st.scheduled < cfg.batchSize then
                      goDiv (d + 23) 24 - env.sent1 - st.scheduled
                    else cfg.batchSize)).length : Int) then
                  ((env.fetch (if goDiv (d + 23) 24 - env.sent1 -
                        st.scheduled < cfg.batchSize then
                      goDiv (d + 23) 24 - env.sent1 - st.scheduled
                    else cfg.batchSize)).length : Int)
                else goDiv (d + 23) 24 - env.sent2 - st.scheduled) then
              goDiv env.nanosToNextHour
                (if goDiv (d + 23) 24 - env.sent2 - st.scheduled <
                    ((env.fetch (if goDiv (d + 23) 24 - env.sent1 -
                          st.scheduled < cfg.batchSize then
                        goDiv (d + 23) 24 - env.sent1 - st.scheduled
                      else cfg.batchSize)).length : Int) then
                  ((env.fetch (if goDiv (d + 23) 24 - env.sent1 -
                        st.scheduled < cfg.batchSize then
                      goDiv (d + 23) 24 - env.sent1 - st.scheduled
                    else cfg.batchSize)).length : Int)
                else goDiv (d + 23) 24 - env.sent2 - st.scheduled)
             else 0),
          { st with scheduled := st.scheduled +
              (((env.fetch (if goDiv (d + 23) 24 - env.sent1 - st.scheduled <
                    cfg.batchSize then
                  goDiv (d + 23) 24 - env.sent1 - st.scheduled
                else cfg.batchSize)).filter (fun ok => ok)).length : Int) })) := by
  simp only [Manager.NextSubscribers, hd, Option.getD_some, Option.isSome_some, hh]
  rw [if_pos ⟨trivial, hdp⟩]
  simp [hh]

/-- C3: with a positive daily quota, `NextSubscribers` computes
`perHour = ceil(daily_quota/24)` — characterised as the least integer `k`
with `d ≤ 24*k` — and `allowed = perHour - sentThisHour - scheduled`; when
`allowed ≤ 0` the call returns `(false, nil)` after scheduling a
self-requeue at the top of the next UTC hour with a minimum wait of one
second; otherwise the store fetch is issued with limit
`min(BatchSize, allowed)`. -/
theorem c3_quota_arithmetic (cfg : Manager.Cfg) (camp : Manager.Camp)
    (st : Manager.PipeSched) (env : Manager.NSEnv) (d : Int)
    (hd : camp.dailyQuota = some d) (hdp : 0 < d)
    (hh : st.scheduledHour = env.nowHour) (he : env.sent1Err = false) :
    (d ≤ 24 * goDiv (d + 23) 24 ∧ 24 * (goDiv (d + 23) 24 - 1) < d) ∧
    (goDiv (d + 23) 24 - env.sent1 - st.scheduled ≤ 0 →
      (Manager.NextSubscribers cfg camp st env).1 =
        .requeue (if env.nanosToNextHour < Manager.oneSecondNanos then
            Manager.oneSecondNanos else env.nanosToNextHour) ∧
      Manager.processedOf (Manager.NextSubscribers cfg camp st env).1 = false ∧
      Manager.errOf (Manager.NextSubscribers cfg camp st env).1 = false) ∧
    (0 < goDiv (d + 23) 24 - env.sent1 - st.scheduled →
      Manager.limitOf (Manager.NextSubscribers cfg camp st env).1 =
        some (min cfg.batchSize (goDiv (d + 23) 24 - env.sent1 - st.scheduled))) := by
  rw [NextSubscribers_quota_eq cfg camp st env d hd hdp hh]
  simp only [he, Bool.false_eq_true, if_false]
  refine ⟨⟨(goDiv_add23_ceil d hdp).1, (goDiv_add23_ceil d hdp).2.1⟩, ?_, ?_⟩
  · intro hle
    rw [if_pos hle]
    exact ⟨rfl, rfl, rfl⟩
  · intro hpos
    have hneg : ¬ (goDiv (d + 23) 24 - env.sent1 - st.scheduled ≤ 0) := by omega
    rw [if_neg hneg]
    have hmin : (if goDiv (d + 23) 24 - env.sent1 - st.scheduled < cfg.batchSize
        then goDiv (d + 23) 24 - env.sent1 - st.scheduled else cfg.batchSize) =
        min cfg.batchSize (goDiv (d + 23) 24 - env.sent1 - st.scheduled) := by
      rw [min_def]
      split_ifs <;> omega
    split_ifs <;> simp [Manager.limitOf, hmin] <;> omega

/-- One `NextSubscribers` call within the current hour never releases more
than the remaining per-hour allowance, and accounts every released message
in the `scheduled` counter (step lemma for the hourly bound). -/
theorem ns_step_bound (cfg : Manager.Cfg) (camp : Manager.Camp)
    (st : Manager.PipeSched) (env : Manager.NSEnv) (d : Int)
    (hd : camp.dailyQuota = some d) (hdp : 0 < d)
    (hh : st.scheduledHour = env.nowHour) (hs1 : 0 ≤ env.sent1)
    (hf : Manager.FetchContract env) :
    (Manager.NextSubscribers cfg camp st env).2.scheduledHour =
      st.scheduledHour ∧
    (Manager.NextSubscribers cfg camp st env).2.scheduled =
      st.scheduled +
        (Manager.releasedOf (Manager.NextSubscribers cfg camp st env).1 : Int) ∧
    ((Manager.releasedOf (Manager.NextSubscribers cfg camp st env).1 : Int) ≤
        goDiv (d + 23) 24 - env.sent1 - st.scheduled ∨
      Manager.releasedOf (Manager.NextSubscribers cfg camp st env).1 = 0) := by
  rw [NextSubscribers_quota_eq cfg camp st env d hd hdp hh]
  split_ifs <;>
    first
      | exact ⟨rfl, by simp [Manager.releasedOf], Or.inr rfl⟩
      | (refine ⟨rfl, rfl, Or.inl ?_⟩
         simp only [Manager.releasedOf]
         have hfil1 := List.length_filter_le (fun (ok : Bool) => ok)
           (env.fetch (goDiv (d + 23) 24 - env.sent1 - st.scheduled))
         have hlen1 := hf (goDiv (d + 23) 24 - env.sent1 - st.scheduled)
         have hfil2 := List.length_filter_le (fun (ok : Bool) => ok)
           (env.fetch cfg.batchSize)
         have hlen2 := hf cfg.batchSize
         omega)

/-- C2: for a campaign with daily quota `d > 0`, over any sequence of
`NextSubscribers` calls within one full UTC hour (starting from the
post-reset state for that hour), the total number of messages released by
the pipe is at most `ceil(d/24)`.  Release instants of a batch are placed
inside the current hour by the spacing computation, so counting enqueued
messages counts the releases of that hour. -/
theorem c2_hourly_bound (cfg : Manager.Cfg) (camp : Manager.Camp) (h : Int)
    (st : Manager.PipeSched) (n : Nat) (d : Int)
    (hd : camp.dailyQuota = some d) (hdp : 0 < d)
    (hrun : Manager.HourRun cfg camp h st n) :
    (n : Int) ≤ goDiv (d + 23) 24 := by
  have key : st.scheduledHour = h ∧ st.scheduled = (n : Int) ∧
      (n : Int) ≤ goDiv (d + 23) 24 := by
    induction hrun with
    | init =>
      refine ⟨rfl, rfl, ?_⟩
      have := (goDiv_add23_ceil d hdp).2.2
      omega
    | step st' n' env prev hh hs1 hf ih =>
      obtain ⟨ih1, ih2, ih3⟩ := ih
      have hh' : st'.scheduledHour = env.nowHour := by rw [ih1, hh]
      obtain ⟨s1, s2, s3⟩ := ns_step_bound cfg camp st' env d hd hdp hh' hs1 hf
      refine ⟨by rw [s1, ih1], by rw [s2, ih2]; push_cast; ring, ?_⟩
      rcases s3 with hb | hb
      · push_cast
        omega
      · rw [hb]
        push_cast
        omega
  exact key.2.2


/-- C3 witness: quota 24 at hour 3 — with the hourly allowance consumed the
call requeues until the next hour; with allowance left the fetch limit is
`min(10, 1) = 1`. -/
theorem c3_quota_arithmetic_witness :
    (Manager.NextSubscribers cfg0 camp0 ⟨0, 3⟩ env2).1 =
      .requeue (if env2.nanosToNextHour < Manager.oneSecondNanos then
          Manager.oneSecondNanos else env2.nanosToNextHour) ∧
    Manager.limitOf (Manager.NextSubscribers cfg0 camp0 ⟨0, 3⟩ env1).1 =
      some (min cfg0.batchSize
        (goDiv (24 + 23) 24 - env1.sent1 -
          (⟨0, 3⟩ : Manager.PipeSched).scheduled)) :=
  ⟨((c3_quota_arithmetic cfg0 camp0 ⟨0, 3⟩ env2 24 rfl (by decide) rfl
      rfl).2.1 (by decide)).1,
   (c3_quota_arithmetic cfg0 camp0 ⟨0, 3⟩ env1 24 rfl (by decide) rfl
      rfl).2.2 (by decide)⟩

/-- C2 witness: a one-step hour run with quota 24 releases at most
`ceil(24/24) = 1` message. -/
theorem c2_hourly_bound_witness :
    ((0 + Manager.releasedOf
        (Manager.NextSubscribers cfg0 camp0 ⟨0, 3⟩ env1).1 : Nat) : Int) ≤
      goDiv (24 + 23) 24 :=
  c2_hourly_bound cfg0 camp0 3 _ _ 24 rfl (by decide)
    (Manager.HourRun.step ⟨0, 3⟩ 0 env1 Manager.HourRun.init rfl (by decide)
      (fun L => by simp [env1]))

end Listmonk
